import Mathlib

set_option maxRecDepth 8192

/-!
Verification of the browser-side chat UI scripts
(`backend/static/script.js` and the enhanced variant).

Rows returned by the backend are JSON objects; we model them as ordered
association lists of stringified field values (JavaScript object key order).
-/

/-! ## Definitions: the shallow embedding of the scripts -/

/-- A result row: ordered key/value pairs, values already stringified. -/
abbrev Row := List (String × String)

/-- Keys of a row, in insertion order (models `Object.keys(r)`). -/
def rowKeys (r : Row) : List String := r.map Prod.fst

/-- Models `row[h] ?? ''` followed by `String(val)`: the value at key `h`,
or the empty string when the key is absent. -/
def jsGet (r : Row) (h : String) : String := (List.lookup h r).getD ""

/-- Models `[...new Set(l)]`: deduplication keeping first occurrences,
in order (JavaScript `Set` preserves insertion order). -/
def jsSetDedup : List String → List String
  | [] => []
  | x :: xs => x :: (jsSetDedup xs).filter (fun y => y != x)

/-- Models `Array.prototype.join(sep)`. -/
def joinWith (sep : String) : List String → String
  | [] => ""
  | [x] => x
  | x :: y :: xs => x ++ sep ++ joinWith sep (y :: xs)

/-- Models `String(val).replace(/"/g, '""')`: double every double quote. -/
def escQuotes : List Char → List Char
  | [] => []
  | c :: cs => if c = '"' then '"' :: '"' :: escQuotes cs else c :: escQuotes cs

/-- Models a CSV cell of `downloadCSV`: the value with quotes doubled,
wrapped in double quotes (`return `"${val}"``). -/
def csvField (v : String) : String := ⟨'"' :: escQuotes v.data ++ ['"']⟩

/-- Header list of the enhanced `downloadCSV`:
`[...new Set(data.flatMap(r => Object.keys(r)))]`. -/
def csvHeadersEnh (data : List Row) : List String :=
  jsSetDedup (data.flatMap rowKeys)

/-- Header list of the basic `downloadCSV` in `script.js`:
`Object.keys(data[0])`. -/
def csvHeadersBasic (data : List Row) : List String :=
  match data with
  | [] => []
  | r :: _ => rowKeys r

/-- One data line of the CSV: `headers.map(h => "...")` joined with commas. -/
def csvRowLine (headers : List String) (row : Row) : String :=
  joinWith "," (headers.map (fun h => csvField (jsGet row h)))

/-- Full CSV text of the enhanced `downloadCSV`: header line then one line
per row, joined with newlines (`csvRows.join('\n')`). -/
def csvTextEnh (data : List Row) : String :=
  joinWith "\n"
    (joinWith "," (csvHeadersEnh data) :: data.map (csvRowLine (csvHeadersEnh data)))

/-- Full CSV text of the basic `downloadCSV` in `script.js`. -/
def csvTextBasic (data : List Row) : String :=
  joinWith "\n"
    (joinWith "," (csvHeadersBasic data) :: data.map (csvRowLine (csvHeadersBasic data)))

/-- Download filename: `` `query_results_${Date.now()}.csv` ``. -/
def csvFilename (ts : Nat) : String := "query_results_" ++ toString ts ++ ".csv"

/-- Parse the remainder of a quoted CSV field (the opening quote already
consumed): `""` is an escaped quote, a lone `"` ends the field. -/
def parseQuoted (l : List Char) : Option (List Char × List Char) :=
  match l with
  | [] => none
  | c :: rest =>
    if c = '"' then
      match rest with
      | [] => some ([], [])
      | c2 :: rest2 =>
        if c2 = '"' then (parseQuoted rest2).map (fun p => ('"' :: p.1, p.2))
        else some ([], c2 :: rest2)
    else (parseQuoted rest).map (fun p => (c :: p.1, p.2))

/-- Parse a comma-separated sequence of fully quoted CSV fields.
The fuel bounds the number of fields. -/
def parseFieldsAux : Nat → List Char → Option (List (List Char))
  | 0, _ => none
  | _ + 1, [] => none
  | fuel + 1, c :: rest =>
    if c = '"' then
      match parseQuoted rest with
      | none => none
      | some (f, rem) =>
        match rem with
        | [] => some [f]
        | c2 :: rest2 =>
          if c2 = ',' then (parseFieldsAux fuel rest2).map (fun fs => f :: fs)
          else none
    else none

/-- Parse one CSV record of fully quoted fields into its field values. -/
def parseCSVLine (s : String) : Option (List String) :=
  (parseFieldsAux s.data.length s.data).map (fun fs => fs.map (fun f => (⟨f⟩ : String)))

/-- Character-level form of a serialised CSV record (a list of raw field
values, each quoted/escaped, joined by commas). -/
def csvRowChars : List (List Char) → List Char
  | [] => []
  | [v] => '"' :: (escQuotes v ++ ['"'])
  | v :: w :: vs => '"' :: (escQuotes v ++ ['"']) ++ ',' :: csvRowChars (w :: vs)

/-- The HTML entity for an ampersand. -/
def ampEnt : List Char := ['&', 'a', 'm', 'p', ';']

/-- The HTML entity for a less-than sign. -/
def ltEnt : List Char := ['&', 'l', 't', ';']

/-- The HTML entity for a greater-than sign. -/
def gtEnt : List Char := ['&', 'g', 't', ';']

/-- The HTML entity for a double quote. -/
def quotEnt : List Char := ['&', 'q', 'u', 'o', 't', ';']

/-- The apostrophe character (U+0027). -/
def aposChar : Char := Char.ofNat 39

/-- The numeric HTML entity the code produces for an apostrophe. -/
def aposEnt : List Char := ['&', '#', '3', '9', ';']

/-- Models one global single-character replace `.replace(/&/g, '&amp;')`. -/
def escAmp (c : Char) : List Char := if c = '&' then ampEnt else [c]

/-- Models `.replace(/</g, '&lt;')`. -/
def escLt (c : Char) : List Char := if c = '<' then ltEnt else [c]

/-- Models `.replace(/>/g, '&gt;')`. -/
def escGt (c : Char) : List Char := if c = '>' then gtEnt else [c]

/-- Models `.replace(/"/g, '&quot;')`. -/
def escQuot (c : Char) : List Char := if c = '"' then quotEnt else [c]

/-- Models `.replace(/'/g, '&#39;')`. -/
def escApos (c : Char) : List Char := if c = aposChar then aposEnt else [c]

/-- The five chained global replaces of `script.js`'s `escapeHtml`,
applied in source order (`&`, `<`, `>`, `"`, `'`). -/
def escapeHtmlChars (l : List Char) : List Char :=
  ((((l.flatMap escAmp).flatMap escLt).flatMap escGt).flatMap escQuot).flatMap escApos

/-- `script.js` `escapeHtml`: `''` for null/undefined, otherwise the five
chained replaces applied to the stringified value. -/
def escapeHtml (value : Option String) : String :=
  match value with
  | none => ""
  | some s => ⟨escapeHtmlChars s.data⟩

/-- One character of HTML text-node serialisation: the browser's
`div.textContent = s; div.innerHTML` escapes `&`, `<` and `>` only. -/
def escTextNode (c : Char) : List Char :=
  if c = '&' then ampEnt
  else if c = '<' then ltEnt
  else if c = '>' then gtEnt
  else [c]

/-- The enhanced client's `escapeHtml` (DOM-based): `''` for null/undefined,
otherwise `div.textContent = String(text); return div.innerHTML`, which
escapes only `&`, `<` and `>` and leaves quotes intact. -/
def escapeHtmlDom (value : Option String) : String :=
  match value with
  | none => ""
  | some s => ⟨s.data.flatMap escTextNode⟩

/-- The fused per-character effect of the five chained replaces. -/
def escChar (c : Char) : List Char :=
  if c = '&' then ampEnt
  else if c = '<' then ltEnt
  else if c = '>' then gtEnt
  else if c = '"' then quotEnt
  else if c = aposChar then aposEnt
  else [c]

/-- Table column keys of `script.js`'s `formatResults`:
`[...new Set(results.flatMap(r => Object.keys(r)))]`. -/
def tableKeys (results : List Row) : List String :=
  jsSetDedup (results.flatMap rowKeys)

/-- One header cell: `` `<th>${escapeHtml(k)}</th>` ``. -/
def thCell (k : String) : String := "<th>" ++ escapeHtml (some k) ++ "</th>"

/-- One data cell: `` `<td>${escapeHtml(r[k]) ?? ''}</td>` `` (the `?? ''`
is dead code since `escapeHtml` never returns null). -/
def tdCell (row : Row) (k : String) : String :=
  "<td>" ++ escapeHtml (List.lookup k row) ++ "</td>"

/-- One table row: `'<tr>' + keys.map(...).join('') + '</tr>'`. -/
def trRow (keys : List String) (row : Row) : String :=
  "<tr>" ++ joinWith "" (keys.map (tdCell row)) ++ "</tr>"

/-- The literal download-button markup appended by `formatResults`. -/
def downloadButtonHtml : String :=
  "\n      <div style=\"margin-top:10px; text-align:right;\">\n        <button class=\"download-csv\" style=\"\n          background:#5e81f4;\n          color:#fff;\n          border:none;\n          border-radius:8px;\n          padding:6px 12px;\n          font-size:0.85rem;\n          cursor:pointer;\n          transition:all 0.2s ease;\n        \">⬇️ Download as CSV</button>\n      </div>"

/-- `script.js` `formatResults`: summary div, table of all observed keys,
one row per result, then the download button. Every interpolated summary,
header key and cell value passes through `escapeHtml`. -/
def formatResults (results : List Row) (summary : String) : String :=
  if results.length = 0 then "No results found." else
  "<div class=\"result-summary\">" ++ escapeHtml (some summary) ++ "</div>"
    ++ "<table><tr>" ++ joinWith "" ((tableKeys results).map thCell) ++ "</tr>"
    ++ joinWith "" (results.map (trRow (tableKeys results))) ++ "</table>"
    ++ downloadButtonHtml

/-- Number of `<` characters in a string: the markup skeleton size. -/
def countLt (s : String) : Nat := s.data.count '<'

/-- `const excludeKeys = ['_id', '_source']`. -/
def excludeKeys : List String := ["_id", "_source"]

/-- `[...new Set(results.flatMap(r => Object.keys(r).filter(k => !excludeKeys.includes(k))))]`. -/
def unionKeysEx (results : List Row) : List String :=
  jsSetDedup (results.flatMap
    (fun r => (rowKeys r).filter (fun k => !(excludeKeys.contains k))))

/-- The column ordering of the enhanced `formatResults`: drop the special
keys, move `_collection` to the front when present, push `ai_summary` and
`Link` to the back. -/
def orderedKeys (results : List Row) : List String :=
  let keys := unionKeysEx results
  let ok0 := keys.filter
    (fun k => k != "_source" && k != "ai_summary" && k != "Link" && k != "_id")
  let ok1 := if keys.contains "_collection"
    then "_collection" :: ok0.filter (fun k => k != "_collection")
    else ok0
  let ok2 := if keys.contains "ai_summary" then ok1 ++ ["ai_summary"] else ok1
  if keys.contains "Link" then ok2 ++ ["Link"] else ok2

/-- Models `str.substring(0, n)`. -/
def jsSubstring (s : String) (n : Nat) : String := ⟨s.data.take n⟩

/-- `truncateText`: `''` for falsy input, the string unchanged when short
enough, otherwise its first `maxLength` characters plus `'...'`. -/
def truncateText (text : Option String) (maxLength : Nat) : String :=
  match text with
  | none => ""
  | some s =>
    if s = "" then ""
    else if s.length ≤ maxLength then s
    else jsSubstring s maxLength ++ "..."

/-- The keys treated as long text fields by the enhanced renderer. -/
def longTextFields : List String := ["Title", "Name", "Inventor", "Assignee", "Organization"]

/-- The per-column truncation budget of the enhanced renderer's cells. -/
def cellMaxLen (k : String) : Nat :=
  if k = "ai_summary" then 250
  else if k = "Abstract" ∨ k = "Description" then 250
  else if longTextFields.contains k then 80 else 50

/-- The text displayed in one table cell of the enhanced renderer, before
HTML escaping (string-valued cells; the JSON-object cell branch is not
modelled since row values are modelled as strings): `N/A` for null/empty,
`View` for links, the full collection name for `_collection`, otherwise
the value truncated to its per-column budget. -/
def cellDisplayText (k : String) (v : Option String) : String :=
  match v with
  | none => "N/A"
  | some s =>
    if s = "" then "N/A"
    else if k = "Link" then "View"
    else if k = "_collection" then s
    else if k = "ai_summary" then truncateText (some s) 250
    else if k = "Abstract" ∨ k = "Description" then truncateText (some s) 250
    else truncateText (some s) (if longTextFields.contains k then 80 else 50)

/-- `getColumnWidth` of the enhanced renderer. -/
def getColumnWidth (key : String) : String :=
  if key = "_collection" then "120px"
  else if key = "Link" then "150px"
  else if key = "Year" || key = "Date" then "100px"
  else if key = "Title" || key = "Name" then "200px"
  else if key = "Abstract" || key = "Description" || key = "ai_summary" then "300px"
  else if key = "Inventor" || key = "Assignee" || key = "Organization" then "180px"
  else "150px"

/-- Models `String.prototype.includes`. -/
def strIncludes (s pat : String) : Bool := decide (pat.data <:+: s.data)

/-- One header cell of the enhanced table. -/
def thCellEnh (k : String) : String :=
  let headerStyle := if k = "_collection" || k = "ai_summary" || k = "Link"
    then "background: var(--gradient-accent); color: white;"
    else "background: var(--input-bg);"
  let width := getColumnWidth k
  "<th style=\"" ++ headerStyle
    ++ " padding: 0.5rem 0.75rem; border: 1px solid var(--border-color); text-align: left; font-weight: 600; font-size: 0.85rem; white-space: nowrap; width: "
    ++ width ++ "; min-width: " ++ width ++ "; max-width: " ++ width ++ ";\">"
    ++ escapeHtmlDom (some k) ++ "</th>"

/-- The `title="..."` tooltip attribute a cell carries when its text was
truncated. -/
def cellTitleAttr (k : String) (v : Option String) : String :=
  match v with
  | none => ""
  | some s =>
    if s = "" then ""
    else if k = "Link" then ""
    else if k = "_collection" then ""
    else if cellMaxLen k < s.length
      then "title=\"" ++ escapeHtmlDom (some s) ++ "\"" else ""

/-- The inner HTML of one cell of the enhanced table. -/
def cellContentHtml (k : String) (v : Option String) : String :=
  match v with
  | none => "<span style=\"color: var(--text-secondary); font-style: italic;\">N/A</span>"
  | some s =>
    if s = "" then "<span style=\"color: var(--text-secondary); font-style: italic;\">N/A</span>"
    else if k = "Link" then
      "<a href=\"" ++ escapeHtmlDom (some s)
        ++ "\" target=\"_blank\" rel=\"noopener noreferrer\" style=\"color: var(--accent-light); text-decoration: underline; white-space: nowrap;\">View</a>"
    else if k = "_collection" then escapeHtmlDom (some s)
    else escapeHtmlDom (some (cellDisplayText k (some s)))

/-- The per-branch inline style of one cell of the enhanced table. -/
def cellStyle (k : String) : String :=
  if k = "_collection" then
    "background: rgba(99, 102, 241, 0.1); font-weight: 600; color: var(--accent-light); white-space: nowrap;"
  else if k = "ai_summary" then
    "font-style: italic; color: var(--text-secondary); line-height: 1.4; white-space: normal; word-wrap: break-word;"
  else if k = "Abstract" || k = "Description" then
    "line-height: 1.4; white-space: normal; word-wrap: break-word;"
  else if longTextFields.contains k then
    "white-space: normal; word-wrap: break-word;"
  else ""

/-- The wrapping style of one cell of the enhanced table. -/
def wrapStyle (k : String) : String :=
  if k = "Abstract" || k = "Description" || k = "ai_summary" || longTextFields.contains k
  then "white-space: normal; word-wrap: break-word;"
  else "white-space: nowrap; overflow: hidden; text-overflow: ellipsis;"

/-- One data cell of the enhanced table. -/
def tdCellEnh (k : String) (row : Row) : String :=
  let width := getColumnWidth k
  "<td " ++ cellTitleAttr k (List.lookup k row) ++ " style=\"" ++ cellStyle k
    ++ " " ++ wrapStyle k
    ++ " padding: 0.5rem 0.75rem; border: 1px solid var(--border-color); width: "
    ++ width ++ "; min-width: " ++ width ++ "; max-width: " ++ width
    ++ "; vertical-align: top;\">" ++ cellContentHtml k (List.lookup k row) ++ "</td>"

/-- One row of the enhanced table. -/
def trRowEnh (keys : List String) (row : Row) : String :=
  "<tr>" ++ joinWith "" (keys.map (fun k => tdCellEnh k row)) ++ "</tr>"

/-- One character of `escapedSummary.replace(/\n/g, '<br>')`. -/
def brChar (c : Char) : List Char :=
  if c = '\n' then ['<', 'b', 'r', '>'] else [c]

/-- The summary block of the enhanced renderer. -/
def summaryDivEnh (summary : String) : String :=
  if summary = "" then ""
  else
    "<div class=\"result-summary\" style=\"margin-bottom: 1rem; padding: 1rem; background: rgba(99, 102, 241, 0.1); border-radius: 0.5rem; border-left: 3px solid var(--accent-color); line-height: 1.6;\">"
      ++ (⟨(escapeHtmlDom (some summary)).data.flatMap brChar⟩ : String) ++ "</div>"

/-- The collections-searched block of the enhanced renderer. -/
def collectionsDivEnh (summary : String) (cs : List String) : String :=
  if 0 < cs.length then
    if summary = "" || !(strIncludes summary.toLower "collection") then
      "<div style=\"margin-bottom: 1rem; padding: 0.75rem; background: rgba(52, 211, 153, 0.1); border-radius: 0.5rem; font-size: 0.9rem; color: var(--text-secondary);\">\n                    <strong>Collections searched:</strong> "
        ++ escapeHtmlDom (some (joinWith ", " cs)) ++ "\n      </div>"
    else ""
  else ""

/-- The literal download-button markup of the enhanced renderer. -/
def downloadButtonHtmlEnh : String :=
  "\n            <div style=\"margin-top: 1rem; text-align: right;\">\n                <button class=\"download-csv\" style=\"\n                    background: var(--gradient-accent);\n                    color: white;\n                    border: none;\n                    border-radius: 0.5rem;\n                    padding: 0.75rem 1.5rem;\n                    font-size: 0.9rem;\n                    font-weight: 600;\n                    cursor: pointer;\n                    transition: all 0.3s ease;\n                    box-shadow: 0 4px 12px rgba(99, 102, 241, 0.3);\n                \">⬇️ Download as CSV</button>\n            </div>"

/-- The enhanced `formatResults(results, summary, data)`; `cs` is the
`collections_searched` list read from `data`. -/
def formatResultsEnh (results : List Row) (summary : String) (cs : List String) : String :=
  if results.length = 0 then (if summary = "" then "No results found." else summary)
  else
    summaryDivEnh summary ++ collectionsDivEnh summary cs
      ++ "<div style=\"overflow-x: auto; margin: 1rem 0; border-radius: 0.5rem;\">"
      ++ "<table style=\"width: 100%; border-collapse: collapse; min-width: 800px; font-size: 0.9rem;\">"
      ++ "<tr>" ++ joinWith "" ((orderedKeys results).map thCellEnh) ++ "</tr>"
      ++ joinWith "" (results.map (trRowEnh (orderedKeys results)))
      ++ "</table>" ++ "</div>" ++ downloadButtonHtmlEnh

/-- Models `userInput.value.trim()`. -/
def jsTrim (s : String) : String :=
  ⟨((s.data.dropWhile Char.isWhitespace).reverse.dropWhile Char.isWhitespace).reverse⟩

/-- The JSON body a handler attaches to its request. -/
inductive ReqBody
  | questionOnly (question : String)
  | questionMode (question : String) (mode : String)
  | searchQuery (query : String) (limit : Nat)
  | fileForm
deriving DecidableEq

/-- One `fetch` call: URL, method and body. -/
structure ApiRequest where
  url : String
  method : String
  body : Option ReqBody
deriving DecidableEq

/-- The outcome of one `fetch`: the promise rejects (network error), or a
response arrives with an HTTP-ok flag whose `.json()` either parses to a
body or throws. -/
inductive FetchOutcome (β : Type)
  | thrown (msg : String)
  | resp (ok : Bool) (json : Except String β)

/-- JavaScript truthiness of an optional string field (`undefined`, `null`
and `''` are falsy). -/
def truthyStr : Option String → Bool
  | none => false
  | some s => s != ""

/-- Models `field || dflt` on an optional string field. -/
def jsOrStr (o : Option String) (dflt : String) : String :=
  match o with
  | some s => if s = "" then dflt else s
  | none => dflt

/-- Template-literal rendering of a possibly-undefined string field
(`` `${x}` `` renders `undefined` for a missing field). -/
def jsStr (o : Option String) : String := o.getD "undefined"

/-- The chat mode of the enhanced client. -/
inductive Mode
  | database
  | serpapi
deriving DecidableEq

/-- An inline status banner (text and background colour). -/
structure Banner where
  text : String
  color : String
deriving DecidableEq

/-- `/api/setup` response body. -/
structure SetupBody where
  message : Option String
  error : Option String
deriving DecidableEq

/-- `/api/import-csv` response body. -/
structure ImportBody where
  collection : Option String
  error : Option String
deriving DecidableEq

/-- `fetch('/api/setup', { method: 'POST' })`. -/
def setupReq : ApiRequest := ⟨"/api/setup", "POST", none⟩

/-- `fetch('/api/import-csv', { method: 'POST', body: formData })`. -/
def importReq : ApiRequest := ⟨"/api/import-csv", "POST", some .fileForm⟩

/-- `fetch('/api/collections')`. -/
def collectionsReq : ApiRequest := ⟨"/api/collections", "GET", none⟩

/-- Effects of the setup / import click handlers. -/
structure SetupEff where
  requests : List ApiRequest
  banner : Banner
deriving DecidableEq

/-- The `setup-db` click handler of `script.js`: one POST, a green banner
with `data.message` on ok, a red `Failed to setup database: ...` banner on
a network error, a JSON parse error or a non-ok status (the thrown
`data.error || 'Setup failed'` is caught in the same handler). -/
def setupHandler (o : FetchOutcome SetupBody) : SetupEff :=
  match o with
  | .thrown m => ⟨[setupReq], ⟨"Failed to setup database: " ++ m, "#ffebee"⟩⟩
  | .resp ok json =>
    match json with
    | .error jm => ⟨[setupReq], ⟨"Failed to setup database: " ++ jm, "#ffebee"⟩⟩
    | .ok data =>
      if ok then ⟨[setupReq], ⟨jsStr data.message, "#e8f5e9"⟩⟩
      else ⟨[setupReq], ⟨"Failed to setup database: " ++ jsOrStr data.error "Setup failed", "#ffebee"⟩⟩

/-- The `import-csv` click handler of `script.js`: no request without a
selected file, otherwise one POST with the file form data. -/
def importClick (hasFile : Bool) (o : FetchOutcome ImportBody) : SetupEff :=
  if !hasFile then ⟨[], ⟨"Please select a CSV file first.", "#fff3e0"⟩⟩
  else
    match o with
    | .thrown m => ⟨[importReq], ⟨"❌ Failed to import CSV: " ++ m, "#ffebee"⟩⟩
    | .resp ok json =>
      match json with
      | .error jm => ⟨[importReq], ⟨"❌ Failed to import CSV: " ++ jm, "#ffebee"⟩⟩
      | .ok data =>
        if ok then
          ⟨[importReq], ⟨"✅ CSV imported successfully into collection: " ++ jsStr data.collection, "#e8f5e9"⟩⟩
        else ⟨[importReq], ⟨"❌ Failed to import CSV: " ++ jsOrStr data.error "CSV import failed", "#ffebee"⟩⟩

/-- A non-array JSON value as `script.js` distinguishes them: an array of
rows, a number, or anything else carried with its JavaScript truthiness
and its `JSON.stringify` rendering. -/
inductive JsVal
  | arr (rows : List Row)
  | num (n : Int)
  | other (truthy : Bool) (repr : String)
deriving DecidableEq

/-- JavaScript truthiness of an optional result field (arrays are always
truthy, numbers are falsy only at `0`). -/
def jsTruthyVal : Option JsVal → Bool
  | none => false
  | some (.arr _) => true
  | some (.num n) => n != 0
  | some (.other t _) => t

/-- `/api/query` response body as `script.js` reads it (the `query` field
is carried as its rendered JSON text). -/
structure BasicResponse where
  error : Option String
  query : Option String
  result : Option JsVal
  sample_result : Option JsVal
  result_summary : Option String
deriving DecidableEq

/-- `data.result || data.sample_result || []` with JavaScript truthiness. -/
def selectBasic (d : BasicResponse) : JsVal :=
  if jsTruthyVal d.result then d.result.getD (.arr [])
  else if jsTruthyVal d.sample_result then d.sample_result.getD (.arr [])
  else .arr []

/-- A chat message added by `script.js` (`user`, `system` or `error`; a
system message rendering a table keeps the raw rows bound to its
download button). -/
inductive QMsg
  | user (text : String)
  | system (text : String)
  | systemTable (html : String) (raw : List Row)
  | error (text : String)
deriving DecidableEq

/-- Effects of `script.js`'s `sendQuery`: the requests it issues, the
messages left in the chat (the transient loading message is added and
removed in every path) and the parsed-query display. -/
structure QueryEff where
  requests : List ApiRequest
  messages : List QMsg
  queryDisplay : Option String
deriving DecidableEq

/-- `fetch('/api/query', ...)` of `script.js` with body
`JSON.stringify({ question })`. -/
def queryReq (question : String) : ApiRequest :=
  ⟨"/api/query", "POST", some (.questionOnly question)⟩

/-- `script.js`'s `sendQuery`: returns immediately on a blank input,
otherwise posts the trimmed question once and renders the response
(`result || sample_result || []`; arrays as a table or a no-results line,
numbers as `Result: n`, anything else as its JSON rendering), catching
every failure as an error message. -/
def sendQuery (input : String) (o : FetchOutcome BasicResponse) : QueryEff :=
  let question := jsTrim input
  if question = "" then ⟨[], [], none⟩ else
  match o with
  | .thrown m =>
    ⟨[queryReq question], [QMsg.user question, QMsg.error ("Error processing your query: " ++ m)], none⟩
  | .resp ok json =>
    match json with
    | .error jm =>
      ⟨[queryReq question], [QMsg.user question, QMsg.error ("Error processing your query: " ++ jm)], none⟩
    | .ok data =>
      if !ok || truthyStr data.error then
        ⟨[queryReq question], [QMsg.user question, QMsg.error ("Error: " ++ jsStr data.error)], none⟩
      else
        let qd := if truthyStr data.query then data.query else none
        let summary := jsOrStr data.result_summary ""
        let resultMessage : QMsg :=
          match selectBasic data with
          | .arr rs =>
            if rs.length ≠ 0 then QMsg.systemTable (formatResults rs summary) rs
            else QMsg.system "No results found for your query."
          | .num n => QMsg.system ("Result: " ++ toString n)
          | .other _ r => QMsg.system r
        ⟨[queryReq question], [QMsg.user question, resultMessage], qd⟩

/-- A chat message added by the enhanced `addMessage` (an assistant
message rendering a table also stores its raw rows as download data). -/
inductive Msg
  | user (text : String)
  | assistant (text : String)
  | assistantTable (html : String) (downloadData : List Row)
  | error (text : String)
deriving DecidableEq

/-- `/api/query` / `/api/search` response body as the enhanced
`sendMessage` reads it. -/
structure EnhResponse where
  error : Option String
  result : Option (List Row)
  patents : Option (List Row)
  sample_result : Option (List Row)
  result_summary : Option String
  summary : Option String
  collections_searched : Option (List String)
deriving DecidableEq

/-- Effects of the enhanced `sendMessage`: requests issued, messages left
in the chat, and whether the processing indicator is still shown at the
end (it is hidden on every path). -/
structure MsgEffects where
  requests : List ApiRequest
  messages : List Msg
  processingShown : Bool
deriving DecidableEq

/-- Database-mode request: `POST /api/query` with
`JSON.stringify({ question, mode: 'database' })`. -/
def enhQueryReq (question : String) : ApiRequest :=
  ⟨"/api/query", "POST", some (.questionMode question "database")⟩

/-- Search-mode request: `POST /api/search` with
`JSON.stringify({ query: question, limit: 10 })`. -/
def enhSearchReq (question : String) : ApiRequest :=
  ⟨"/api/search", "POST", some (.searchQuery question 10)⟩

/-- The request `sendMessage` issues for the current mode. -/
def requestFor (mode : Mode) (question : String) : ApiRequest :=
  match mode with
  | .database => enhQueryReq question
  | .serpapi => enhSearchReq question

/-- `data.result || data.patents || data.sample_result || []`: the rows
the enhanced client renders (array-valued fields; `null`/absent is falsy,
any array — even empty — is truthy). -/
def selectEnh (d : EnhResponse) : List Row :=
  match d.result with
  | some rs => rs
  | none =>
    match d.patents with
    | some ps => ps
    | none =>
      match d.sample_result with
      | some ss => ss
      | none => []

/-- `data.result_summary || data.summary || ''`. -/
def summaryEnh (d : EnhResponse) : String :=
  jsOrStr d.result_summary (jsOrStr d.summary "")

/-- The summary after the database-mode collection annotation
(lines appending `Searched N collection(s): ...` unless the summary
already mentions collections). -/
def enhancedSummaryOf (mode : Mode) (d : EnhResponse) : String :=
  let summary := summaryEnh d
  let cs := (d.collections_searched).getD []
  if 0 < cs.length ∧ mode = .database then
    if !(strIncludes summary "collection") then
      summary ++ "\n\nSearched " ++ toString cs.length ++ " collection(s): " ++ joinWith ", " cs
    else summary
  else summary

/-- The no-results message of the enhanced client. -/
def noResultsMsgOf (d : EnhResponse) : String :=
  let cs := (d.collections_searched).getD []
  if 0 < cs.length then
    "No results found in " ++ toString cs.length ++ " collection(s): "
      ++ joinWith ", " cs ++ ". Try rephrasing your query."
  else "No results found. Try rephrasing your query."

/-- The enhanced `sendMessage`: returns immediately on a blank input;
otherwise posts once to `/api/query` (database mode) or `/api/search`
(search mode) and renders the outcome, catching every failure — rejected
fetch, non-ok status (with `errorData.error || 'Request failed'`, or
`'Unknown error'` if that body does not parse), JSON parse failure, or a
truthy `error` field — as an error message; the processing indicator is
hidden in every path. -/
def sendMessage (mode : Mode) (input : String) (o : FetchOutcome EnhResponse) : MsgEffects :=
  let question := jsTrim input
  if question = "" then ⟨[], [], false⟩ else
  let req := requestFor mode question
  match o with
  | .thrown m => ⟨[req], [Msg.user question, Msg.error ("Error: " ++ m)], false⟩
  | .resp ok json =>
    if !ok then
      let errText := match json with
        | .ok d => jsOrStr d.error "Request failed"
        | .error _ => "Unknown error"
      ⟨[req], [Msg.user question, Msg.error ("Error: " ++ errText)], false⟩
    else
      match json with
      | .error jm =>
        ⟨[req], [Msg.user question, Msg.error ("Error: Failed to parse server response. " ++ jm)], false⟩
      | .ok data =>
        if truthyStr data.error then
          ⟨[req], [Msg.user question, Msg.error ("Error: " ++ (data.error).getD "")], false⟩
        else
          let results := selectEnh data
          let enhancedSummary := enhancedSummaryOf mode data
          if 0 < results.length then
            ⟨[req],
              [Msg.user question,
               Msg.assistantTable
                 (formatResultsEnh results enhancedSummary ((data.collections_searched).getD []))
                 results],
              false⟩
          else if enhancedSummary ≠ "" then
            ⟨[req], [Msg.user question, Msg.assistant enhancedSummary], false⟩
          else
            ⟨[req], [Msg.user question, Msg.assistant (noResultsMsgOf data)], false⟩

/-- The `disabled` flag `updateSendButton` leaves on the send button:
`!(userInput.value.trim().length > 0)`. -/
def updateSendButton (value : String) : Bool :=
  !(decide (0 < (jsTrim value).length))

/-- Effects of the enhanced CSV file-input change handler. -/
structure CsvEff where
  requests : List ApiRequest
  toasts : List (String × String)
deriving DecidableEq

/-- The enhanced `csv-file` change handler: nothing without a file;
otherwise one import POST, and on success a toast plus a deferred
`loadCollections` call (`setTimeout(loadCollections, 500)`) which issues
the collections request after the import response arrived. -/
def csvChange (hasFile : Bool) (o : FetchOutcome ImportBody) : CsvEff :=
  if !hasFile then ⟨[], []⟩
  else
    let uploading := ("Uploading CSV...", "info")
    match o with
    | .thrown m => ⟨[importReq], [uploading, ("❌ Upload failed: " ++ m, "error")]⟩
    | .resp ok json =>
      match json with
      | .error jm => ⟨[importReq], [uploading, ("❌ Upload failed: " ++ jm, "error")]⟩
      | .ok data =>
        if ok then
          ⟨[importReq, collectionsReq],
            [uploading, ("✅ CSV imported: " ++ jsStr data.collection, "success")]⟩
        else
          ⟨[importReq], [uploading, ("❌ Upload failed: " ++ jsOrStr data.error "Upload failed", "error")]⟩

/-- One sidebar collection entry (`{name, count}`). -/
structure CollItem where
  name : String
  count : Nat
deriving DecidableEq

/-- `/api/collections` response body. -/
structure CollBody where
  collections : Option (List CollItem)
deriving DecidableEq

/-- Effects of `loadCollections`: the request and the sidebar HTML. -/
structure CollEff where
  requests : List ApiRequest
  listHtml : String
deriving DecidableEq

/-- One rendered sidebar collection item. -/
def collectionItemHtml (c : CollItem) : String :=
  "<div class=\"collection-item\">\n                        <span>"
    ++ escapeHtmlDom (some c.name) ++ "</span>\n                        <span class=\"count\">"
    ++ toString c.count ++ "</span>\n                    </div>"

/-- The sidebar placeholder shown when loading collections fails. -/
def collectionsErrorHtml : String :=
  "<div class=\"collection-item empty\">Error loading collections</div>"

/-- The enhanced `loadCollections`: one GET; every failure (rejected
fetch, non-ok status, JSON parse failure) is caught and rendered as the
error placeholder; an empty list renders the `No data loaded`
placeholder. -/
def loadCollections (o : FetchOutcome CollBody) : CollEff :=
  match o with
  | .thrown _ => ⟨[collectionsReq], collectionsErrorHtml⟩
  | .resp ok json =>
    if !ok then ⟨[collectionsReq], collectionsErrorHtml⟩
    else
      match json with
      | .error _ => ⟨[collectionsReq], collectionsErrorHtml⟩
      | .ok data =>
        let cs := (data.collections).getD []
        if cs.length = 0 then
          ⟨[collectionsReq], "<div class=\"collection-item empty\">No data loaded</div>"⟩
        else ⟨[collectionsReq], joinWith "" (cs.map collectionItemHtml)⟩

/-- `addMessage`'s update of the `messageDownloadData` map: when a raw
row array is provided it is stored under the new message's id
(`messageDownloadData.set(messageId, downloadData)`, modelled as a
front-inserted association list), otherwise the map is unchanged. -/
def storeDownloadData (m : List (String × List Row)) (messageId : String)
    (downloadData : Option (List Row)) : List (String × List Row) :=
  match downloadData with
  | some rows => (messageId, rows) :: m
  | none => m

/-- What a download-button click produces. -/
inductive ClickResult
  | download (csv : String)
  | toast (msg : String)
deriving DecidableEq

/-- The enhanced `downloadCSV`: a `No data to export.` toast on an empty
array, otherwise the CSV download. -/
def downloadCSVEnh (data : List Row) : ClickResult :=
  if data.length = 0 then .toast "No data to export."
  else .download (csvTextEnh data)

/-- The download-button click handler: look the message id up in
`messageDownloadData`; export the stored rows when present, otherwise
show the `No data available for download` toast. -/
def downloadClick (m : List (String × List Row)) (messageId : String) : ClickResult :=
  match List.lookup messageId m with
  | some d => downloadCSVEnh d
  | none => .toast "No data available for download"

/-- The rows bound to the first table message, if any (which rows a
rendered result message exports). -/
def renderedRows (msgs : List Msg) : Option (List Row) :=
  msgs.findSome? (fun m => match m with
    | Msg.assistantTable _ rows => some rows
    | _ => none)

/-- `true` when a message is an error message. -/
def isErrMsg : Msg → Bool
  | Msg.error _ => true
  | _ => false

/-- `true` when a `script.js` message is an error message. -/
def isErrQMsg : QMsg → Bool
  | QMsg.error _ => true
  | _ => false

/-- The result selection as the claim words it (spec-side definition, for
comparison with `selectEnh`): the `result` field if present, otherwise
`sample_result` in database mode or `patents` in search mode, otherwise
the empty result set. -/
def claimSelect (mode : Mode) (d : EnhResponse) : List Row :=
  match d.result with
  | some rs => rs
  | none =>
    match (match mode with
           | Mode.database => d.sample_result
           | Mode.serpapi => d.patents) with
    | some x => x
    | none => []

/-- The failure outcomes of a `script.js` query: rejected fetch, JSON
parse failure, non-ok status, or a truthy `error` field. -/
def isFailureBasic : FetchOutcome BasicResponse → Bool
  | .thrown _ => true
  | .resp _ (.error _) => true
  | .resp ok (.ok d) => !ok || truthyStr d.error

/-- The failure outcomes of an enhanced query/search: rejected fetch,
JSON parse failure, non-ok status, or a truthy `error` field. -/
def isFailureEnh : FetchOutcome EnhResponse → Bool
  | .thrown _ => true
  | .resp _ (.error _) => true
  | .resp ok (.ok d) => !ok || truthyStr d.error

/-! ## Theorems -/

theorem data_append (a b : String) : (a ++ b).data = a.data ++ b.data := rfl

theorem string_mk_data (s : String) : (⟨s.data⟩ : String) = s := rfl

theorem csvField_data (v : String) :
    (csvField v).data = '"' :: escQuotes v.data ++ ['"'] := rfl

theorem parseQuoted_escQuotes (v : List Char) :
    ∀ rest : List Char, rest.head? ≠ some '"' →
    parseQuoted (escQuotes v ++ '"' :: rest) = some (v, rest) := by
  induction v with
  | nil =>
    intro rest h
    cases rest with
    | nil => simp [escQuotes, parseQuoted]
    | cons r rs =>
      have hr : ¬ r = '"' := by
        intro e; exact h (by simp [e])
      rw [escQuotes, parseQuoted.eq_def]
      simp [hr]
  | cons c cs ih =>
    intro rest h
    by_cases hc : c = '"'
    · subst hc
      simp only [escQuotes, if_pos rfl, List.cons_append]
      rw [parseQuoted.eq_def]
      simp [ih rest h]
    · simp only [escQuotes, if_neg hc, List.cons_append]
      rw [parseQuoted.eq_def]
      simp [hc, ih rest h]

theorem parseFieldsAux_csvRowChars :
    ∀ (vs : List (List Char)) (fuel : Nat), vs ≠ [] → vs.length ≤ fuel →
    parseFieldsAux fuel (csvRowChars vs) = some vs := by
  intro vs
  induction vs with
  | nil => intro fuel h _; exact absurd rfl h
  | cons v tail ih =>
    intro fuel _ hlen
    cases fuel with
    | zero => simp at hlen
    | succ f =>
      cases tail with
      | nil =>
        have hq := parseQuoted_escQuotes v [] (by simp)
        have hshape : csvRowChars [v] = '"' :: (escQuotes v ++ '"' :: []) := rfl
        rw [hshape]
        simp [parseFieldsAux, hq]
      | cons w ws =>
        have hq := parseQuoted_escQuotes v (',' :: csvRowChars (w :: ws)) (by simp)
        have hrec := ih f (by simp)
          (by simp only [List.length_cons] at hlen ⊢; omega)
        have hshape : csvRowChars (v :: w :: ws)
            = '"' :: (escQuotes v ++ '"' :: ',' :: csvRowChars (w :: ws)) := by
          simp [csvRowChars]
        rw [hshape]
        simp [parseFieldsAux, hq, hrec]

theorem csvRowChars_length (vs : List (List Char)) :
    vs.length ≤ (csvRowChars vs).length := by
  induction vs with
  | nil => simp [csvRowChars]
  | cons v tail ih =>
    cases tail with
    | nil => simp [csvRowChars]
    | cons w ws =>
      simp only [csvRowChars, List.length_cons, List.length_append] at *
      omega

theorem csvLine_data (vals : List String) :
    (joinWith "," (vals.map csvField)).data = csvRowChars (vals.map String.data) := by
  induction vals with
  | nil => rfl
  | cons v tail ih =>
    cases tail with
    | nil => simp [joinWith, csvRowChars, csvField_data]
    | cons w ws =>
      simp only [List.map_cons, joinWith, csvRowChars] at *
      rw [data_append, data_append, ih, csvField_data]
      simp

theorem map_mk_data (vals : List String) :
    (vals.map String.data).map (fun f => (⟨f⟩ : String)) = vals := by
  induction vals with
  | nil => rfl
  | cons v tail ih => simp [ih]

theorem csv_roundtrip_aux (vals : List String) (h : vals ≠ []) :
    parseCSVLine (joinWith "," (vals.map csvField)) = some vals := by
  unfold parseCSVLine
  rw [csvLine_data]
  have hne : vals.map String.data ≠ [] := by
    intro e; exact h (List.map_eq_nil_iff.mp e)
  have hlen : (vals.map String.data).length ≤ (csvRowChars (vals.map String.data)).length :=
    csvRowChars_length _
  rw [parseFieldsAux_csvRowChars (vals.map String.data) _ hne hlen]
  show some ((vals.map String.data).map (fun f => (⟨f⟩ : String))) = some vals
  rw [map_mk_data]

/-- C2: serialising field values with `downloadCSV`'s quoting scheme
(each value quote-doubled and wrapped in quotes, fields joined by commas)
and parsing the result with a standard quoted-field CSV parser recovers
the original stringified field values. -/
theorem csv_roundtrip (vals : List String) (h : vals ≠ []) :
    parseCSVLine (joinWith "," (vals.map csvField)) = some vals :=
  csv_roundtrip_aux vals h

/-- Witness for `csv_roundtrip`: a record whose values embed commas and
double quotes survives the round trip. -/
theorem csv_roundtrip_witness :
    parseCSVLine (joinWith "," (["a,b", "c\"d", ""].map csvField)) = some ["a,b", "c\"d", ""] :=
  csv_roundtrip ["a,b", "c\"d", ""] (by decide)

theorem mem_jsSetDedup {a : String} : ∀ {l : List String}, a ∈ jsSetDedup l ↔ a ∈ l := by
  intro l
  induction l with
  | nil => simp [jsSetDedup]
  | cons x xs ih =>
    by_cases hax : a = x
    · subst hax; simp [jsSetDedup]
    · simp [jsSetDedup, List.mem_filter, hax, ih, bne_iff_ne]

theorem nodup_jsSetDedup : ∀ l : List String, (jsSetDedup l).Nodup := by
  intro l
  induction l with
  | nil => simp [jsSetDedup]
  | cons x xs ih =>
    simp only [jsSetDedup, List.nodup_cons]
    constructor
    · intro hx
      have := (List.mem_filter.mp hx).2
      simp at this
    · exact ih.filter _

theorem mem_csvHeadersEnh {k : String} {data : List Row} :
    k ∈ csvHeadersEnh data ↔ ∃ r ∈ data, k ∈ rowKeys r := by
  unfold csvHeadersEnh
  rw [mem_jsSetDedup, List.mem_flatMap]

/-- C1 (counterexample): on the two-row input where the second row has an
extra key `b`, the basic `downloadCSV` of `script.js` emits the CSV header
`a` (keys of the first row only), not the union of observed keys, so its
generated CSV differs from the union-header CSV; the claim as stated is
false for that variant. -/
theorem csv_header_basic_counterexample :
    csvHeadersBasic [[("a", "1")], [("a", "2"), ("b", "3")]] = ["a"]
    ∧ csvHeadersEnh [[("a", "1")], [("a", "2"), ("b", "3")]] = ["a", "b"]
    ∧ csvTextBasic [[("a", "1")], [("a", "2"), ("b", "3")]]
        ≠ csvTextEnh [[("a", "1")], [("a", "2"), ("b", "3")]] := by
  decide

/-- C1 (amended): for every non-empty row list, the enhanced `downloadCSV`
emits a header row listing exactly the union of keys observed across all
rows, without duplicates; the basic `script.js` variant instead uses the
keys of the first row. In both variants each data line consists of the
row's field values each wrapped in double quotes with embedded quotes
doubled — so a standard quoted-field CSV parser recovers them exactly —
and the download filename is `query_results_<timestamp>.csv`. -/
theorem csv_export_amended (data : List Row) (ts : Nat) (_h : data ≠ []) :
    (∀ k, k ∈ csvHeadersEnh data ↔ ∃ r ∈ data, k ∈ rowKeys r)
    ∧ (csvHeadersEnh data).Nodup
    ∧ (∀ r, data = r :: (data.drop 1) → csvHeadersBasic data = rowKeys r)
    ∧ (∀ row ∈ data, csvHeadersEnh data ≠ [] →
        parseCSVLine (csvRowLine (csvHeadersEnh data) row)
          = some ((csvHeadersEnh data).map (jsGet row)))
    ∧ (∀ row ∈ data, csvHeadersBasic data ≠ [] →
        parseCSVLine (csvRowLine (csvHeadersBasic data) row)
          = some ((csvHeadersBasic data).map (jsGet row)))
    ∧ csvFilename ts = "query_results_" ++ toString ts ++ ".csv" := by
  refine ⟨fun k => mem_csvHeadersEnh, nodup_jsSetDedup _, ?_, ?_, ?_, rfl⟩
  · intro r hr
    rw [hr]
    rfl
  · intro row _ hne
    have hvals : (csvHeadersEnh data).map (jsGet row) ≠ [] := by
      intro e; exact hne (List.map_eq_nil_iff.mp e)
    have := csv_roundtrip_aux ((csvHeadersEnh data).map (jsGet row)) hvals
    rwa [List.map_map] at this
  · intro row _ hne
    have hvals : (csvHeadersBasic data).map (jsGet row) ≠ [] := by
      intro e; exact hne (List.map_eq_nil_iff.mp e)
    have := csv_roundtrip_aux ((csvHeadersBasic data).map (jsGet row)) hvals
    rwa [List.map_map] at this

/-- Witness for `csv_export_amended` at a concrete two-row input. -/
theorem csv_export_amended_witness :
    ([[("a", "1")], [("b", "2")]] : List Row) ≠ []
    ∧ ((∀ k, k ∈ csvHeadersEnh [[("a", "1")], [("b", "2")]]
          ↔ ∃ r ∈ ([[("a", "1")], [("b", "2")]] : List Row), k ∈ rowKeys r)
      ∧ (csvHeadersEnh [[("a", "1")], [("b", "2")]]).Nodup
      ∧ (∀ r, ([[("a", "1")], [("b", "2")]] : List Row)
            = r :: (([[("a", "1")], [("b", "2")]] : List Row).drop 1)
          → csvHeadersBasic [[("a", "1")], [("b", "2")]] = rowKeys r)
      ∧ (∀ row ∈ ([[("a", "1")], [("b", "2")]] : List Row),
          csvHeadersEnh [[("a", "1")], [("b", "2")]] ≠ [] →
          parseCSVLine (csvRowLine (csvHeadersEnh [[("a", "1")], [("b", "2")]]) row)
            = some ((csvHeadersEnh [[("a", "1")], [("b", "2")]]).map (jsGet row)))
      ∧ (∀ row ∈ ([[("a", "1")], [("b", "2")]] : List Row),
          csvHeadersBasic [[("a", "1")], [("b", "2")]] ≠ [] →
          parseCSVLine (csvRowLine (csvHeadersBasic [[("a", "1")], [("b", "2")]]) row)
            = some ((csvHeadersBasic [[("a", "1")], [("b", "2")]]).map (jsGet row)))
      ∧ csvFilename 7 = "query_results_" ++ toString 7 ++ ".csv") :=
  ⟨by decide, csv_export_amended [[("a", "1")], [("b", "2")]] 7 (by decide)⟩

theorem escChar_pipeline (c : Char) :
    ((((escAmp c).flatMap escLt).flatMap escGt).flatMap escQuot).flatMap escApos
      = escChar c := by
  by_cases h1 : c = '&'
  · subst h1; decide
  · by_cases h2 : c = '<'
    · subst h2; decide
    · by_cases h3 : c = '>'
      · subst h3; decide
      · by_cases h4 : c = '"'
        · subst h4; decide
        · by_cases h5 : c = aposChar
          · subst h5; decide
          · simp [escAmp, escLt, escGt, escQuot, escApos, escChar, h1, h2, h3, h4, h5]

theorem escapeHtmlChars_eq (l : List Char) : escapeHtmlChars l = l.flatMap escChar := by
  induction l with
  | nil => rfl
  | cons c cs ih =>
    unfold escapeHtmlChars at ih ⊢
    simp only [List.flatMap_cons, List.flatMap_append]
    rw [ih, escChar_pipeline]

theorem escChar_safe (a c : Char) (h : c ∈ escChar a) :
    c ≠ '<' ∧ c ≠ '>' ∧ c ≠ '"' ∧ c ≠ aposChar := by
  unfold escChar at h
  split_ifs at h
  · simp [ampEnt] at h
    rcases h with rfl | rfl | rfl | rfl | rfl <;> decide
  · simp [ltEnt] at h
    rcases h with rfl | rfl | rfl | rfl <;> decide
  · simp [gtEnt] at h
    rcases h with rfl | rfl | rfl | rfl <;> decide
  · simp [quotEnt] at h
    rcases h with rfl | rfl | rfl | rfl | rfl | rfl <;> decide
  · simp [aposEnt] at h
    rcases h with rfl | rfl | rfl | rfl | rfl <;> decide
  · next h1 h2 h3 h4 h5 =>
    simp at h
    subst h
    exact ⟨h2, h3, h4, h5⟩

theorem escTextNode_safe (a c : Char) (h : c ∈ escTextNode a) :
    c ≠ '<' ∧ c ≠ '>' := by
  unfold escTextNode at h
  split_ifs at h
  · simp [ampEnt] at h
    rcases h with rfl | rfl | rfl | rfl | rfl <;> decide
  · simp [ltEnt] at h
    rcases h with rfl | rfl | rfl | rfl <;> decide
  · simp [gtEnt] at h
    rcases h with rfl | rfl | rfl | rfl <;> decide
  · next h1 h2 h3 =>
    simp at h
    subst h
    exact ⟨h2, h3⟩

theorem countLt_append (a b : String) : countLt (a ++ b) = countLt a + countLt b := by
  simp [countLt, data_append, List.count_append]

theorem countLt_escapeHtml (v : Option String) : countLt (escapeHtml v) = 0 := by
  cases v with
  | none => rfl
  | some s =>
    apply List.count_eq_zero.mpr
    intro hmem
    have hsafe : ('<' : Char) ≠ '<' := by
      have h := hmem
      simp only [escapeHtml] at h
      rw [escapeHtmlChars_eq] at h
      obtain ⟨a, _, ha⟩ := List.mem_flatMap.mp h
      exact (escChar_safe a '<' ha).1
    exact hsafe rfl

theorem countLt_joinWith_map {α : Type} (f : α → String) (n : Nat)
    (hf : ∀ x, countLt (f x) = n) :
    ∀ l : List α, countLt (joinWith "" (l.map f)) = n * l.length := by
  intro l
  induction l with
  | nil => simp [joinWith, countLt]
  | cons x tail ih =>
    cases tail with
    | nil => simp [joinWith, hf x]
    | cons y ys =>
      have hstep : joinWith "" ((x :: y :: ys).map f)
          = f x ++ "" ++ joinWith "" ((y :: ys).map f) := rfl
      rw [hstep, countLt_append, countLt_append, hf x, ih]
      have hempty : countLt "" = 0 := rfl
      rw [hempty]
      simp only [List.length_cons]
      ring

theorem countLt_thCell (k : String) : countLt (thCell k) = 2 := by
  unfold thCell
  rw [countLt_append, countLt_append, countLt_escapeHtml]
  decide

theorem countLt_tdCell (row : Row) (k : String) : countLt (tdCell row k) = 2 := by
  unfold tdCell
  rw [countLt_append, countLt_append, countLt_escapeHtml]
  decide

theorem countLt_trRow (keys : List String) (row : Row) :
    countLt (trRow keys row) = 2 + 2 * keys.length := by
  unfold trRow
  rw [countLt_append, countLt_append,
    countLt_joinWith_map (tdCell row) 2 (countLt_tdCell row) keys]
  have h1 : countLt "<tr>" = 1 := rfl
  have h2 : countLt "</tr>" = 1 := rfl
  rw [h1, h2]
  omega

/-- C3 (counterexample): the enhanced client's DOM-based `escapeHtml`
(`div.textContent` / `div.innerHTML`) does not escape double quotes: on
input `"` it returns `"` unchanged, so the claim that every `escapeHtml`
output contains no `"` character is false for that variant (a quote can
break out of the `title="..."` attributes it is interpolated into). -/
theorem escapeHtmlDom_quote_counterexample :
    escapeHtmlDom (some "\"") = "\"" ∧ '"' ∈ (escapeHtmlDom (some "\"")).data := by
  decide

/-- C3 (amended): `script.js`'s `escapeHtml` output contains no `<`, `>`,
`"` or `'` and decomposes into entities it produced and non-special
characters (so `&` occurs only as the start of such an entity); the
enhanced client's DOM-based `escapeHtml` guarantees this only for `<`, `>`
and `&`, leaving quotes intact. In `script.js`'s `formatResults` the
summary, every header key and every cell value pass through `escapeHtml`,
so the number of `<` characters of the generated HTML — its markup
skeleton — depends only on the number of rows and columns, never on the
data: HTML-special characters in cells are rendered as text. -/
theorem escape_rendering_amended :
    (∀ v : Option String, ∀ c ∈ (escapeHtml v).data,
      c ≠ '<' ∧ c ≠ '>' ∧ c ≠ '"' ∧ c ≠ aposChar)
    ∧ (∀ v : Option String, ∃ units : List (List Char),
        (escapeHtml v).data = units.flatten
        ∧ ∀ u ∈ units,
            (u = ampEnt ∨ u = ltEnt ∨ u = gtEnt ∨ u = quotEnt ∨ u = aposEnt)
            ∨ ∃ c, u = [c] ∧ c ≠ '&' ∧ c ≠ '<' ∧ c ≠ '>' ∧ c ≠ '"' ∧ c ≠ aposChar)
    ∧ (∀ v : Option String, ∀ c ∈ (escapeHtmlDom v).data, c ≠ '<' ∧ c ≠ '>')
    ∧ (∀ v : Option String, ∃ units : List (List Char),
        (escapeHtmlDom v).data = units.flatten
        ∧ ∀ u ∈ units,
            (u = ampEnt ∨ u = ltEnt ∨ u = gtEnt)
            ∨ ∃ c, u = [c] ∧ c ≠ '&' ∧ c ≠ '<' ∧ c ≠ '>')
    ∧ (∀ (results : List Row) (summary : String), results ≠ [] →
        countLt (formatResults results summary)
          = 10 + 2 * (tableKeys results).length
            + results.length * (2 + 2 * (tableKeys results).length)) := by
  refine ⟨?_, ?_, ?_, ?_, ?_⟩
  · intro v c hc
    cases v with
    | none => simp [escapeHtml] at hc
    | some s =>
      simp only [escapeHtml] at hc
      rw [escapeHtmlChars_eq] at hc
      obtain ⟨a, _, ha⟩ := List.mem_flatMap.mp hc
      exact escChar_safe a c ha
  · intro v
    cases v with
    | none => exact ⟨[], rfl, by simp⟩
    | some s =>
      refine ⟨s.data.map escChar, ?_, ?_⟩
      · show escapeHtmlChars s.data = _
        rw [escapeHtmlChars_eq, List.flatMap_def]
      · intro u hu
        obtain ⟨a, _, rfl⟩ := List.mem_map.mp hu
        unfold escChar
        split_ifs with h1 h2 h3 h4 h5
        · exact Or.inl (Or.inl rfl)
        · exact Or.inl (Or.inr (Or.inl rfl))
        · exact Or.inl (Or.inr (Or.inr (Or.inl rfl)))
        · exact Or.inl (Or.inr (Or.inr (Or.inr (Or.inl rfl))))
        · exact Or.inl (Or.inr (Or.inr (Or.inr (Or.inr rfl))))
        · exact Or.inr ⟨a, rfl, h1, h2, h3, h4, h5⟩
  · intro v c hc
    cases v with
    | none => simp [escapeHtmlDom] at hc
    | some s =>
      simp only [escapeHtmlDom] at hc
      obtain ⟨a, _, ha⟩ := List.mem_flatMap.mp hc
      exact escTextNode_safe a c ha
  · intro v
    cases v with
    | none => exact ⟨[], rfl, by simp⟩
    | some s =>
      refine ⟨s.data.map escTextNode, ?_, ?_⟩
      · show s.data.flatMap escTextNode = _
        rw [List.flatMap_def]
      · intro u hu
        obtain ⟨a, _, rfl⟩ := List.mem_map.mp hu
        unfold escTextNode
        split_ifs with h1 h2 h3
        · exact Or.inl (Or.inl rfl)
        · exact Or.inl (Or.inr (Or.inl rfl))
        · exact Or.inl (Or.inr (Or.inr rfl))
        · exact Or.inr ⟨a, rfl, h1, h2, h3⟩
  · intro results summary hne
    have hlen0 : ¬ results.length = 0 := by
      simpa using hne
    unfold formatResults
    rw [if_neg hlen0]
    simp only [countLt_append]
    rw [countLt_escapeHtml,
      countLt_joinWith_map thCell 2 countLt_thCell (tableKeys results),
      countLt_joinWith_map (trRow (tableKeys results))
        (2 + 2 * (tableKeys results).length)
        (countLt_trRow (tableKeys results)) results]
    have c1 : countLt "<div class=\"result-summary\">" = 1 := rfl
    have c2 : countLt "</div>" = 1 := rfl
    have c3 : countLt "<table><tr>" = 2 := rfl
    have c4 : countLt "</tr>" = 1 := rfl
    have c5 : countLt "</table>" = 1 := rfl
    have c6 : countLt downloadButtonHtml = 4 := by decide
    rw [c1, c2, c3, c4, c5, c6]
    ring

/-- Witness for `escape_rendering_amended` at a one-row table whose cell
holds markup. -/
theorem escape_rendering_amended_witness :
    ([[("k", "<b>")]] : List Row) ≠ []
    ∧ countLt (formatResults [[("k", "<b>")]] "s&")
        = 10 + 2 * (tableKeys [[("k", "<b>")]]).length
          + ([[("k", "<b>")]] : List Row).length
            * (2 + 2 * (tableKeys [[("k", "<b>")]]).length) :=
  ⟨by decide, escape_rendering_amended.2.2.2.2 [[("k", "<b>")]] "s&" (by decide)⟩

theorem mem_unionKeysEx {k : String} {results : List Row} :
    k ∈ unionKeysEx results
      ↔ (∃ r ∈ results, k ∈ rowKeys r) ∧ k ≠ "_id" ∧ k ≠ "_source" := by
  unfold unionKeysEx
  rw [mem_jsSetDedup, List.mem_flatMap]
  constructor
  · rintro ⟨r, hr, hk⟩
    rw [List.mem_filter] at hk
    have h2 := hk.2
    simp [excludeKeys] at h2
    exact ⟨⟨r, hr, hk.1⟩, h2.1, h2.2⟩
  · rintro ⟨⟨r, hr, hk⟩, h1, h2⟩
    exact ⟨r, hr, List.mem_filter.mpr ⟨hk, by simp [excludeKeys, h1, h2]⟩⟩

theorem orderedKeys_decomp (results : List Row) :
    orderedKeys results
      = (if "_collection" ∈ unionKeysEx results then ["_collection"] else [])
        ++ (unionKeysEx results).filter
            (fun k => k != "_collection"
              && (k != "_source" && k != "ai_summary" && k != "Link" && k != "_id"))
        ++ (if "ai_summary" ∈ unionKeysEx results then ["ai_summary"] else [])
        ++ (if "Link" ∈ unionKeysEx results then ["Link"] else []) := by
  unfold orderedKeys
  by_cases h1 : "_collection" ∈ unionKeysEx results
    <;> by_cases h2 : "ai_summary" ∈ unionKeysEx results
    <;> by_cases h3 : "Link" ∈ unionKeysEx results
    <;> simp only [List.contains_iff_exists_mem_beq]
    <;> simp [h1, h2, h3, List.filter_filter]
    <;> try rw [List.filter_congr (q := fun k =>
          (k != "_collection")
            && (k != "_source" && k != "ai_summary" && k != "Link" && k != "_id"))
          (fun k hk => by
            have hne : k ≠ "_collection" := fun e => h1 (e ▸ hk)
            simp [hne])]

theorem mem_orderedKeys {k : String} {results : List Row} :
    k ∈ orderedKeys results ↔ k ∈ unionKeysEx results := by
  rw [orderedKeys_decomp]
  simp only [List.mem_append, List.mem_filter]
  constructor
  · intro h
    rcases h with ((h | h) | h) | h
    · split at h
      · simp at h; subst h; assumption
      · simp at h
    · exact h.1
    · split at h
      · simp at h; subst h; assumption
      · simp at h
    · split at h
      · simp at h; subst h; assumption
      · simp at h
  · intro hk
    by_cases e1 : k = "_collection"
    · subst e1; left; left; left; simp [hk]
    · by_cases e2 : k = "ai_summary"
      · subst e2; left; right; simp [hk]
      · by_cases e3 : k = "Link"
        · subst e3; right; simp [hk]
        · have h1 : k ≠ "_id" := (mem_unionKeysEx.mp hk).2.1
          have h2 : k ≠ "_source" := (mem_unionKeysEx.mp hk).2.2
          left; left; right
          refine ⟨hk, ?_⟩
          simp [e1, e2, e3, h1, h2]

/-- C10 (confirmed): in the enhanced `formatResults`, `_id` and `_source`
never appear as columns; `_collection`, when present in any row, is the
first column; the column list decomposes as the optional `_collection`
prefix, the remaining observed keys in first-occurrence order (the
deduplicated key list is filtered, preserving order), then `ai_summary`
and `Link` in that order when present; and the columns are exactly the
observed keys minus the excluded ones. -/
theorem column_order (results : List Row) :
    ("_id" ∉ orderedKeys results ∧ "_source" ∉ orderedKeys results)
    ∧ ((∃ r ∈ results, "_collection" ∈ rowKeys r) →
        (orderedKeys results).head? = some "_collection")
    ∧ orderedKeys results
        = (if "_collection" ∈ unionKeysEx results then ["_collection"] else [])
          ++ (unionKeysEx results).filter
              (fun k => k != "_collection"
                && (k != "_source" && k != "ai_summary" && k != "Link" && k != "_id"))
          ++ (if "ai_summary" ∈ unionKeysEx results then ["ai_summary"] else [])
          ++ (if "Link" ∈ unionKeysEx results then ["Link"] else [])
    ∧ (∀ k, k ∈ orderedKeys results
        ↔ (∃ r ∈ results, k ∈ rowKeys r) ∧ k ≠ "_id" ∧ k ≠ "_source") := by
  refine ⟨⟨?_, ?_⟩, ?_, orderedKeys_decomp results, ?_⟩
  · intro h
    have := mem_unionKeysEx.mp (mem_orderedKeys.mp h)
    exact this.2.1 rfl
  · intro h
    have := mem_unionKeysEx.mp (mem_orderedKeys.mp h)
    exact this.2.2 rfl
  · intro ⟨r, hr, hk⟩
    have hc : "_collection" ∈ unionKeysEx results :=
      mem_unionKeysEx.mpr ⟨⟨r, hr, hk⟩, by decide, by decide⟩
    rw [orderedKeys_decomp, if_pos hc]
    rfl
  · intro k
    rw [mem_orderedKeys, mem_unionKeysEx]

/-- Witness for `column_order`: a concrete result set containing `_id`,
`_collection`, `ai_summary` and `Link` keys. -/
theorem column_order_witness :
    (∃ r ∈ ([[("_id", "1"), ("_collection", "c"), ("b", "2"), ("Link", "l")],
              [("a", "3"), ("ai_summary", "s")]] : List Row),
      "_collection" ∈ rowKeys r)
    ∧ (orderedKeys [[("_id", "1"), ("_collection", "c"), ("b", "2"), ("Link", "l")],
        [("a", "3"), ("ai_summary", "s")]]).head? = some "_collection" :=
  ⟨by decide,
    (column_order [[("_id", "1"), ("_collection", "c"), ("b", "2"), ("Link", "l")],
      [("a", "3"), ("ai_summary", "s")]]).2.1 (by decide)⟩

theorem truncateText_length_le (s : String) (m : Nat) :
    (truncateText (some s) m).length ≤ m + 3 := by
  show (if s = "" then "" else if s.length ≤ m then s
    else jsSubstring s m ++ "...").length ≤ m + 3
  split_ifs with h1 h2
  · exact Nat.zero_le _
  · exact Nat.le_trans h2 (Nat.le_add_right m 3)
  · have h3 : (jsSubstring s m ++ "...").length = min m s.data.length + 3 := by
      show (jsSubstring s m ++ "...").data.length = _
      rw [data_append, List.length_append]
      show (s.data.take m).length + 3 = _
      rw [List.length_take]
    rw [h3]
    omega

theorem cellDisplayText_le (k : String) (v : Option String) (h : k ≠ "_collection") :
    (cellDisplayText k v).length ≤ cellMaxLen k + 3 := by
  cases v with
  | none => exact Nat.le_add_left 3 _
  | some s =>
    show (if s = "" then "N/A"
      else if k = "Link" then "View"
      else if k = "_collection" then s
      else if k = "ai_summary" then truncateText (some s) 250
      else if k = "Abstract" ∨ k = "Description" then truncateText (some s) 250
      else truncateText (some s)
        (if longTextFields.contains k then 80 else 50)).length ≤ cellMaxLen k + 3
    by_cases h1 : s = ""
    · rw [if_pos h1]
      exact Nat.le_add_left 3 _
    · rw [if_neg h1]
      by_cases h2 : k = "Link"
      · rw [if_pos h2]
        subst h2
        decide
      · rw [if_neg h2]
        by_cases h3 : k = "_collection"
        · exact absurd h3 h
        · rw [if_neg h3]
          by_cases h4 : k = "ai_summary"
          · rw [if_pos h4]
            subst h4
            have hb : cellMaxLen "ai_summary" = 250 := by decide
            rw [hb]
            exact truncateText_length_le s 250
          · rw [if_neg h4]
            by_cases h5 : k = "Abstract" ∨ k = "Description"
            · rw [if_pos h5]
              have hb : cellMaxLen k = 250 := by
                unfold cellMaxLen
                rw [if_neg h4, if_pos h5]
              rw [hb]
              exact truncateText_length_le s 250
            · rw [if_neg h5]
              have hb : cellMaxLen k = if longTextFields.contains k then 80 else 50 := by
                unfold cellMaxLen
                rw [if_neg h4, if_neg h5]
              rw [hb]
              exact truncateText_length_le s _

/-- C9 (confirmed): `truncateText` returns `''` for falsy input (null,
undefined or the empty string), returns the input unchanged when its
length is at most `maxLength`, and otherwise returns the first
`maxLength` characters followed by `'...'`, of total length
`maxLength + 3`; consequently every truncating table cell of the enhanced
renderer (every column except the untruncated `_collection`) displays at
most its per-column character budget plus the ellipsis. -/
theorem truncate_props (maxLength : Nat) :
    truncateText none maxLength = ""
    ∧ truncateText (some "") maxLength = ""
    ∧ (∀ s : String, s.length ≤ maxLength → truncateText (some s) maxLength = s)
    ∧ (∀ s : String, maxLength < s.length →
        truncateText (some s) maxLength = jsSubstring s maxLength ++ "..."
        ∧ (truncateText (some s) maxLength).length = maxLength + 3)
    ∧ (∀ (k : String) (v : Option String), k ≠ "_collection" →
        (cellDisplayText k v).length ≤ cellMaxLen k + 3) := by
  refine ⟨rfl, by simp [truncateText], ?_, ?_, fun k v h => cellDisplayText_le k v h⟩
  · intro s hs
    show (if s = "" then "" else if s.length ≤ maxLength then s
      else jsSubstring s maxLength ++ "...") = s
    by_cases h1 : s = ""
    · rw [if_pos h1]
      exact h1.symm
    · rw [if_neg h1, if_pos hs]
  · intro s hs
    have hne : ¬ s = "" := by
      intro e
      subst e
      exact Nat.not_lt_zero maxLength hs
    have hnle : ¬ s.length ≤ maxLength := by omega
    constructor
    · show (if s = "" then "" else if s.length ≤ maxLength then s
        else jsSubstring s maxLength ++ "...") = jsSubstring s maxLength ++ "..."
      rw [if_neg hne, if_neg hnle]
    · show (if s = "" then "" else if s.length ≤ maxLength then s
        else jsSubstring s maxLength ++ "...").length = maxLength + 3
      rw [if_neg hne, if_neg hnle]
      show (jsSubstring s maxLength ++ "...").data.length = maxLength + 3
      rw [data_append, List.length_append]
      show (s.data.take maxLength).length + 3 = maxLength + 3
      rw [List.length_take]
      have hd : s.data.length = s.length := rfl
      omega

/-- Witness for `truncate_props`: truncation at budget 2 on a six-character
string, and the cell bound at a 59-character `Year` cell. -/
theorem truncate_props_witness :
    ((2 : Nat) < ("abcdef" : String).length
      ∧ truncateText (some "abcdef") 2 = jsSubstring "abcdef" 2 ++ "..."
      ∧ (truncateText (some "abcdef") 2).length = 2 + 3)
    ∧ (("Year" : String) ≠ "_collection"
      ∧ (cellDisplayText "Year"
          (some "12345678901234567890123456789012345678901234567890123456789")).length
            ≤ cellMaxLen "Year" + 3) :=
  ⟨⟨by decide, (truncate_props 2).2.2.2.1 "abcdef" (by decide)⟩,
   ⟨by decide,
    (truncate_props 2).2.2.2.2 "Year"
      (some "12345678901234567890123456789012345678901234567890123456789")
      (by decide)⟩⟩

/-- C7 (confirmed): `addMessage` stores exactly the raw row array passed
as download data under the new message id (and stores nothing when no
download data is passed); clicking that message's download button exports
the CSV of exactly the stored rows; and a message id with no entry
produces the no-data toast instead of a download. -/
theorem download_map_invariant (m : List (String × List Row)) (messageId : String)
    (rows : List Row) :
    List.lookup messageId (storeDownloadData m messageId (some rows)) = some rows
    ∧ storeDownloadData m messageId none = m
    ∧ (rows ≠ [] →
        downloadClick (storeDownloadData m messageId (some rows)) messageId
          = ClickResult.download (csvTextEnh rows))
    ∧ (∀ mid, List.lookup mid m = none →
        downloadClick m mid = ClickResult.toast "No data available for download") := by
  have hlook : List.lookup messageId ((messageId, rows) :: m) = some rows := by
    simp [List.lookup]
  refine ⟨hlook, rfl, ?_, ?_⟩
  · intro hne
    show downloadClick ((messageId, rows) :: m) messageId = _
    unfold downloadClick
    rw [hlook]
    show (if rows.length = 0 then ClickResult.toast "No data to export."
      else ClickResult.download (csvTextEnh rows)) = _
    rw [if_neg (fun h0 => hne (List.length_eq_zero.mp h0))]
  · intro mid hmid
    unfold downloadClick
    rw [hmid]

/-- Witness for `download_map_invariant` at a one-row store. -/
theorem download_map_invariant_witness :
    ([[("a", "1")]] : List Row) ≠ []
    ∧ downloadClick (storeDownloadData [] "m1" (some [[("a", "1")]])) "m1"
        = ClickResult.download (csvTextEnh [[("a", "1")]])
    ∧ downloadClick [] "m2" = ClickResult.toast "No data available for download" :=
  ⟨by decide,
   (download_map_invariant [] "m1" [[("a", "1")]]).2.2.1 (by decide),
   (download_map_invariant [] "m1" [[("a", "1")]]).2.2.2 "m2" rfl⟩

theorem str_empty_iff (s : String) : s = "" ↔ s.length = 0 := by
  constructor
  · intro h
    subst h
    rfl
  · intro h
    cases s with
    | mk data =>
      have hd : data.length = 0 := h
      have hnil : data = [] := List.length_eq_zero.mp hd
      subst hnil
      rfl

/-- C8 (confirmed): when the trimmed input is empty, `sendQuery` and
`sendMessage` return immediately — no request is issued and no message is
appended — and `updateSendButton` disables the send button exactly when
the trimmed input is empty. -/
theorem empty_input_noop (input : String) (mode : Mode)
    (o : FetchOutcome BasicResponse) (o2 : FetchOutcome EnhResponse) :
    (jsTrim input = "" →
        sendQuery input o = ⟨[], [], none⟩
        ∧ sendMessage mode input o2 = ⟨[], [], false⟩)
    ∧ (updateSendButton input = true ↔ jsTrim input = "") := by
  constructor
  · intro h
    constructor
    · simp [sendQuery, h]
    · simp [sendMessage, h]
  · constructor
    · intro hb
      have hnot : ¬ (0 < (jsTrim input).length) := by
        simpa [updateSendButton] using hb
      exact (str_empty_iff _).mpr (by omega)
    · intro h
      rw [updateSendButton, h]
      decide

/-- Witness for `empty_input_noop` at a whitespace-only input. -/
theorem empty_input_noop_witness :
    jsTrim "  " = ""
    ∧ sendQuery "  " (FetchOutcome.thrown "x") = ⟨[], [], none⟩
    ∧ sendMessage Mode.database "  " (FetchOutcome.thrown "x") = ⟨[], [], false⟩ :=
  ⟨by decide,
   ((empty_input_noop "  " Mode.database (FetchOutcome.thrown "x")
      (FetchOutcome.thrown "x")).1 (by decide)).1,
   ((empty_input_noop "  " Mode.database (FetchOutcome.thrown "x")
      (FetchOutcome.thrown "x")).1 (by decide)).2⟩

/-- C5 (counterexample): one successful CSV file-input change causes two
network requests — the import POST and the deferred collections reload
scheduled by `setTimeout(loadCollections, 500)` — so "at most one network
request per single user action" is false as stated. -/
theorem csv_change_two_requests_counterexample :
    (csvChange true (FetchOutcome.resp true (Except.ok ⟨some "c", none⟩))).requests
      = [importReq, collectionsReq]
    ∧ ¬ ((csvChange true (FetchOutcome.resp true
          (Except.ok ⟨some "c", none⟩))).requests.length ≤ 1) := by
  exact ⟨rfl, by decide⟩

/-- C5 (amended): every user action issues at most one network request,
except the CSV file-input change handler: on a successful import it also
triggers the deferred collections reload, for exactly two sequential
requests (the second starts only after the import response arrived); on
every failed import it issues at most one. -/
theorem request_count_amended :
    (∀ o : FetchOutcome SetupBody, (setupHandler o).requests.length ≤ 1)
    ∧ (∀ (hasFile : Bool) (o : FetchOutcome ImportBody),
        (importClick hasFile o).requests.length ≤ 1)
    ∧ (∀ (input : String) (o : FetchOutcome BasicResponse),
        (sendQuery input o).requests.length ≤ 1)
    ∧ (∀ (mode : Mode) (input : String) (o : FetchOutcome EnhResponse),
        (sendMessage mode input o).requests.length ≤ 1)
    ∧ (∀ o : FetchOutcome CollBody, (loadCollections o).requests.length = 1)
    ∧ (∀ (hasFile : Bool) (o : FetchOutcome ImportBody),
        (csvChange hasFile o).requests.length ≤ 2)
    ∧ (∀ d : ImportBody,
        (csvChange true (FetchOutcome.resp true (Except.ok d))).requests.length = 2)
    ∧ (∀ (hasFile : Bool) (m : String),
        (csvChange hasFile (FetchOutcome.thrown m)).requests.length ≤ 1)
    ∧ (∀ (hasFile ok : Bool) (jm : String),
        (csvChange hasFile (FetchOutcome.resp ok (Except.error jm))).requests.length ≤ 1)
    ∧ (∀ (hasFile : Bool) (d : ImportBody),
        (csvChange hasFile (FetchOutcome.resp false (Except.ok d))).requests.length ≤ 1) := by
  refine ⟨?_, ?_, ?_, ?_, ?_, ?_, ?_, ?_, ?_, ?_⟩
  · intro o
    rcases o with m | ⟨ok, json⟩
    · simp [setupHandler]
    · rcases json with jm | d
      · simp [setupHandler]
      · cases ok <;> simp [setupHandler]
  · intro hasFile o
    cases hasFile
    · simp [importClick]
    · rcases o with m | ⟨ok, json⟩
      · simp [importClick]
      · rcases json with jm | d
        · simp [importClick]
        · cases ok <;> simp [importClick]
  · intro input o
    by_cases h : jsTrim input = ""
    · simp [sendQuery, h]
    · rcases o with m | ⟨ok, json⟩
      · simp [sendQuery, h]
      · rcases json with jm | d
        · simp [sendQuery, h]
        · simp only [sendQuery, if_neg h]
          split <;> simp
  · intro mode input o
    by_cases h : jsTrim input = ""
    · simp [sendMessage, h]
    · rcases o with m | ⟨ok, json⟩
      · simp [sendMessage, h]
      · simp only [sendMessage, if_neg h]
        rcases json with jm | d
        all_goals repeat' split
        all_goals simp
  · intro o
    rcases o with m | ⟨ok, json⟩
    · simp [loadCollections]
    · simp only [loadCollections]
      rcases json with jm | d
      all_goals repeat' split
      all_goals simp
  · intro hasFile o
    cases hasFile
    · simp [csvChange]
    · rcases o with m | ⟨ok, json⟩
      · simp [csvChange]
      · rcases json with jm | d
        · simp [csvChange]
        · cases ok <;> simp [csvChange]
  · intro d
    rfl
  · intro hasFile m
    cases hasFile <;> simp [csvChange]
  · intro hasFile ok jm
    cases hasFile <;> simp [csvChange]
  · intro hasFile d
    cases hasFile <;> simp [csvChange]

/-- C6 (counterexample): on a database-mode response with no `result`,
`patents = [patents-row]` and `sample_result = [sample-row]`, the claim
says the sample rows are rendered, but the code's fallback chain
`result || patents || sample_result` renders the patents rows in both
modes. -/
theorem select_patents_counterexample :
    claimSelect Mode.database
        ⟨none, none, some [[("src", "patents")]], some [[("src", "sample")]], none, none, none⟩
      = [[("src", "sample")]]
    ∧ selectEnh
        ⟨none, none, some [[("src", "patents")]], some [[("src", "sample")]], none, none, none⟩
      = [[("src", "patents")]]
    ∧ renderedRows (sendMessage Mode.database "q"
        (FetchOutcome.resp true (Except.ok
          ⟨none, none, some [[("src", "patents")]], some [[("src", "sample")]],
            none, none, none⟩))).messages
      = some [[("src", "patents")]]
    ∧ ([[("src", "patents")]] : List Row) ≠ [[("src", "sample")]] := by
  refine ⟨rfl, rfl, rfl, by decide⟩

/-- C6 (amended): the database-mode request is `POST /api/query` with a
JSON body carrying the question (and `mode: 'database'`), the search-mode
request is `POST /api/search` with `{query, limit: 10}`, and exactly one
request is issued per non-blank send; the rendered rows follow the
JavaScript fallback `result || patents || sample_result || []` in both
modes — `patents` takes precedence over `sample_result` even in database
mode — with an absent/null field skipped and everything absent meaning an
empty result set; a successful, error-free response with a non-empty
selection renders exactly the selected rows; and a non-empty
`result_summary` is what is rendered as the summary. -/
theorem api_request_response_amended :
    (∀ q : String, requestFor Mode.database q
        = ⟨"/api/query", "POST", some (ReqBody.questionMode q "database")⟩)
    ∧ (∀ q : String, requestFor Mode.serpapi q
        = ⟨"/api/search", "POST", some (ReqBody.searchQuery q 10)⟩)
    ∧ (∀ (mode : Mode) (input : String) (o : FetchOutcome EnhResponse),
        jsTrim input ≠ "" →
        (sendMessage mode input o).requests = [requestFor mode (jsTrim input)])
    ∧ (∀ (d : EnhResponse) (rs : List Row), d.result = some rs → selectEnh d = rs)
    ∧ (∀ (d : EnhResponse) (ps : List Row),
        d.result = none → d.patents = some ps → selectEnh d = ps)
    ∧ (∀ (d : EnhResponse) (ss : List Row),
        d.result = none → d.patents = none → d.sample_result = some ss → selectEnh d = ss)
    ∧ (∀ d : EnhResponse,
        d.result = none → d.patents = none → d.sample_result = none → selectEnh d = [])
    ∧ (∀ (mode : Mode) (input : String) (d : EnhResponse),
        jsTrim input ≠ "" → truthyStr d.error = false → 0 < (selectEnh d).length →
        renderedRows (sendMessage mode input
          (FetchOutcome.resp true (Except.ok d))).messages = some (selectEnh d))
    ∧ (∀ (d : EnhResponse) (s : String),
        d.result_summary = some s → s ≠ "" → summaryEnh d = s) := by
  refine ⟨fun q => rfl, fun q => rfl, ?_, ?_, ?_, ?_, ?_, ?_, ?_⟩
  · intro mode input o h
    rcases o with m | ⟨ok, json⟩
    · simp [sendMessage, h]
    · simp only [sendMessage, if_neg h]
      rcases json with jm | d
      all_goals repeat' split
      all_goals simp
  · intro d rs h
    simp [selectEnh, h]
  · intro d ps h1 h2
    simp [selectEnh, h1, h2]
  · intro d ss h1 h2 h3
    simp [selectEnh, h1, h2, h3]
  · intro d h1 h2 h3
    simp [selectEnh, h1, h2, h3]
  · intro mode input d h he hsel
    simp only [sendMessage, if_neg h]
    repeat' split
    all_goals first
      | rfl
      | (exfalso; simp_all)
  · intro d s h1 h2
    simp [summaryEnh, jsOrStr, h1, h2]

/-- Witness for `api_request_response_amended`: a non-blank search-mode
send issues exactly the search request. -/
theorem api_request_response_amended_witness :
    jsTrim "hello" ≠ ""
    ∧ (sendMessage Mode.serpapi "hello" (FetchOutcome.thrown "boom")).requests
        = [requestFor Mode.serpapi (jsTrim "hello")] :=
  ⟨by decide,
   api_request_response_amended.2.2.1 Mode.serpapi "hello"
     (FetchOutcome.thrown "boom") (by decide)⟩

/-- C4 (counterexample): an HTTP-ok setup response that carries an
`error` field is not surfaced as an error: the handler renders the green
success banner with `data.message`, and the error string appears nowhere
in it; so "every failure — including an error field in the response
body — is surfaced" is false for the setup handler (likewise for import
and collections, which never read `error` on ok responses). -/
theorem setup_ok_error_field_counterexample :
    setupHandler (FetchOutcome.resp true (Except.ok ⟨some "Done", some "boom"⟩))
      = ⟨[setupReq], ⟨"Done", "#e8f5e9"⟩⟩
    ∧ ("#e8f5e9" : String) ≠ "#ffebee"
    ∧ ¬ (("boom" : String).data <:+:
          (setupHandler (FetchOutcome.resp true
            (Except.ok ⟨some "Done", some "boom"⟩))).banner.text.data) :=
  ⟨rfl, by decide, by decide⟩

/-- C4 (amended): every transport-level failure — rejected fetch, JSON
parse failure, non-ok HTTP status — is caught inside its handler and
surfaced as a red inline banner, an error toast, an error chat message or
the error placeholder, with the thrown message embedded where one exists;
a truthy `error` field in an HTTP-ok body is additionally surfaced by the
query/search handlers (`sendQuery`/`sendMessage`) but ignored by the
setup, import and collections handlers; no handler retries (claim C5's
request bounds) and `sendMessage` always hides the processing
indicator. -/
theorem error_handling_amended :
    (∀ m, (setupHandler (FetchOutcome.thrown m)).banner.color = "#ffebee"
      ∧ m.data <:+: (setupHandler (FetchOutcome.thrown m)).banner.text.data)
    ∧ (∀ (ok : Bool) (jm : String),
        (setupHandler (FetchOutcome.resp ok (Except.error jm))).banner.color = "#ffebee")
    ∧ (∀ d : SetupBody,
        (setupHandler (FetchOutcome.resp false (Except.ok d))).banner.color = "#ffebee")
    ∧ (∀ m, (importClick true (FetchOutcome.thrown m)).banner.color = "#ffebee")
    ∧ (∀ d : ImportBody,
        (importClick true (FetchOutcome.resp false (Except.ok d))).banner.color = "#ffebee")
    ∧ (∀ m, ((csvChange true (FetchOutcome.thrown m)).toasts.any
        (fun t => t.2 == "error")) = true)
    ∧ (∀ (ok : Bool) (jm : String),
        ((csvChange true (FetchOutcome.resp ok (Except.error jm))).toasts.any
          (fun t => t.2 == "error")) = true)
    ∧ (∀ d : ImportBody,
        ((csvChange true (FetchOutcome.resp false (Except.ok d))).toasts.any
          (fun t => t.2 == "error")) = true)
    ∧ (∀ (input : String) (o : FetchOutcome BasicResponse),
        jsTrim input ≠ "" → isFailureBasic o = true →
        ((sendQuery input o).messages.any isErrQMsg) = true)
    ∧ (∀ (mode : Mode) (input : String) (o : FetchOutcome EnhResponse),
        jsTrim input ≠ "" → isFailureEnh o = true →
        ((sendMessage mode input o).messages.any isErrMsg) = true)
    ∧ (∀ m, (loadCollections (FetchOutcome.thrown m)).listHtml = collectionsErrorHtml)
    ∧ (∀ (ok : Bool) (jm : String),
        (loadCollections (FetchOutcome.resp ok (Except.error jm))).listHtml
          = collectionsErrorHtml)
    ∧ (∀ d : CollBody,
        (loadCollections (FetchOutcome.resp false (Except.ok d))).listHtml
          = collectionsErrorHtml)
    ∧ (∀ (mode : Mode) (input : String) (o : FetchOutcome EnhResponse),
        (sendMessage mode input o).processingShown = false) := by
  refine ⟨?_, ?_, ?_, ?_, ?_, ?_, ?_, ?_, ?_, ?_, ?_, ?_, ?_, ?_⟩
  · intro m
    exact ⟨rfl, ⟨"Failed to setup database: ".data, [], by simp [setupHandler, data_append]⟩⟩
  · intro ok jm
    rfl
  · intro d
    rfl
  · intro m
    rfl
  · intro d
    rfl
  · intro m
    rfl
  · intro ok jm
    rfl
  · intro d
    rfl
  · intro input o h hf
    rcases o with m | ⟨ok, json⟩
    · simp [sendQuery, h, isErrQMsg]
    · rcases json with jm | d
      · simp [sendQuery, h, isErrQMsg]
      · have hc : (!ok || truthyStr d.error) = true := hf
        simp only [sendQuery, if_neg h]
        rw [if_pos hc]
        simp [isErrQMsg]
  · intro mode input o h hf
    rcases o with m | ⟨ok, json⟩
    · simp [sendMessage, h, isErrMsg]
    · simp only [sendMessage, if_neg h]
      cases ok with
      | false =>
        rcases json with jm | d
        all_goals repeat' split
        all_goals simp_all [isErrMsg]
      | true =>
        rcases json with jm | d
        · repeat' split
          all_goals simp_all [isErrMsg]
        · have hc : truthyStr d.error = true := by simpa [isFailureEnh] using hf
          repeat' split
          all_goals simp_all [isErrMsg]
  · intro m
    rfl
  · intro ok jm
    cases ok <;> rfl
  · intro d
    rfl
  · intro mode input o
    by_cases h : jsTrim input = ""
    · simp [sendMessage, h]
    · rcases o with m | ⟨ok, json⟩
      · simp [sendMessage, h]
      · simp only [sendMessage, if_neg h]
        rcases json with jm | d
        all_goals repeat' split
        all_goals simp

/-- Witness for `error_handling_amended`: an HTTP-ok query response with
an `error` field is surfaced as an error message by `sendQuery`. -/
theorem error_handling_amended_witness :
    jsTrim "hi" ≠ ""
    ∧ isFailureBasic (FetchOutcome.resp true
        (Except.ok ⟨some "boom", none, none, none, none⟩)) = true
    ∧ ((sendQuery "hi" (FetchOutcome.resp true
        (Except.ok ⟨some "boom", none, none, none, none⟩))).messages.any isErrQMsg) = true :=
  ⟨by decide, by decide,
   error_handling_amended.2.2.2.2.2.2.2.2.1 "hi"
     (FetchOutcome.resp true (Except.ok ⟨some "boom", none, none, none, none⟩))
     (by decide) (by decide)⟩
